import Mathlib

/-!
Shallow embedding of `PyContacTracing.py` (agent-based epidemic simulator).

Python's `random.random()` is modelled by an explicit draw stream
`r : ℕ → ℚ` together with a cursor `n : ℕ`; every operation that consumes
draws returns the advanced cursor, preserving the sequential issuance order
of the source.  Machine floats are modelled by `ℚ` (all probability
arithmetic in the source is additions/comparisons of small constants);
Python ints by `ℤ` (counters that the source can drive negative, e.g.
`defer_alarm`) or `ℕ` (the non-negative return bitmask).
-/

namespace PyCT

/-- Return-code bits (source: `DO_INFECT = 1`, `DO_ALARM = 2`). -/
def DO_INFECT : ℕ := 1

/-- Return-code bit for the alarm signal. -/
def DO_ALARM : ℕ := 2

/-- The `status` enum of the source. -/
inductive Status where
  | healthy
  | incub
  | illquarant
  | recovered
  | dead
deriving DecidableEq, Repr

/-- The `humanParams` class fields together with the module-level constants
`EFFICIENCY_REDUCTION` and `DEFER_SWAB_DAYS` (plain scalars fixed before a
run, per the source header). -/
structure Params where
  Ti : ℤ
  Tr : ℤ
  Td : ℤ
  Tq : ℤ
  Pd : ℚ
  Pi : ℚ
  meeting : ℕ
  amtHasApp : ℚ
  swabAvailabilityProbability : ℚ
  efficiency_reduction : ℚ
  defer_swab_days : ℤ
deriving DecidableEq, Repr

/-- Per-agent state: the instance attributes of class `human`. -/
structure Human where
  st : Status
  icounter : ℤ
  riskcounter : ℚ
  willdie : Bool
  safequarantinectr : ℤ
  hasApp : Bool
  meetingList : List ℕ
  id : ℕ
  defer_alarm : ℤ
deriving DecidableEq, Repr

/-- The class-level defaults of `human` (fresh agent before `__init__`
overrides `id`, `hasApp`, `meetingList`). -/
def human0 : Human :=
  { st := Status.healthy, icounter := 0, riskcounter := 0, willdie := false,
    safequarantinectr := 0, hasApp := false, meetingList := [], id := 0,
    defer_alarm := 0 }

/-- A stream of `random.random()` draws. -/
abbrev Draws := ℕ → ℚ

/-- `human.infect` (source lines 80–86): Healthy agents move to incubation
with `icounter = Ti` and the call returns 1; any other status is a no-op
returning 0. -/
def infect (p : Params) (a : Human) : Human × ℕ :=
  if a.st = Status.healthy then
    ({ a with st := Status.incub, icounter := p.Ti }, 1)
  else
    (a, 0)

/-- `human.incubend` (source lines 88–102): sample `willdie`, set the
illness duration, move to `illquarant`; app users that pass the swab
availability test either arm `defer_alarm = DEFER_SWAB_DAYS` (when that
constant is nonzero, Python truthiness) or return `DO_ALARM` at once. -/
def incubend (p : Params) (a : Human) (r : Draws) (n : ℕ) : Human × ℕ × ℕ :=
  let wd := decide (r n < p.Pd)
  let a1 := { a with willdie := wd,
                     icounter := if wd then p.Td else p.Tr,
                     st := Status.illquarant }
  if a1.hasApp then
    if r (n + 1) < p.swabAvailabilityProbability then
      if p.defer_swab_days ≠ 0 then
        ({ a1 with defer_alarm := p.defer_swab_days }, 0, n + 2)
      else
        (a1, DO_ALARM, n + 2)
    else
      (a1, 0, n + 2)
  else
    (a1, 0, n + 1)

/-- `human.appAlarm` (source lines 104–108): app users that pass the
compliance check (`random() > EFFICIENCY_REDUCTION`) arm
`safequarantinectr = Tq`.  The draw is consumed only when `hasApp`. -/
def appAlarm (p : Params) (a : Human) (r : Draws) (n : ℕ) : Human × ℕ :=
  if a.hasApp then
    if r n > p.efficiency_reduction then
      ({ a with safequarantinectr := p.Tq }, n + 1)
    else
      (a, n + 1)
  else
    (a, n)

/-- `human.quarantineEnd` (source lines 110–111): unconditionally resets
the status to Healthy. -/
def quarantineEnd (a : Human) : Human :=
  { a with st := Status.healthy }

/-- `human.isMeetable` (source lines 113–117). -/
def isMeetable (a : Human) : Bool :=
  a.st = Status.healthy ∧ a.safequarantinectr = 0

/-- `human.isDead` (source lines 122–126), returning 0/1 as the source does. -/
def isDead (a : Human) : ℕ :=
  if a.st = Status.dead then 1 else 0

/-- `human.isInfected` (source lines 136–140). -/
def isInfected (a : Human) : ℕ :=
  if a.st = Status.illquarant ∨ a.st = Status.incub then 1 else 0

/-- `human.isRecovered` (source lines 142–146). -/
def isRecovered (a : Human) : ℕ :=
  if a.st = Status.recovered then 1 else 0

/-- `human.isHealthy` (source lines 148–152). -/
def isHealthy (a : Human) : ℕ :=
  if a.st = Status.healthy then 1 else 0

/-- First block of `human.step` (source lines 161–164): decrement a
positive quarantine counter; on reaching 0, invoke `quarantineEnd`. -/
def stepQuarantine (a : Human) : Human :=
  if a.safequarantinectr > 0 then
    let a1 := { a with safequarantinectr := a.safequarantinectr - 1 }
    if a1.safequarantinectr = 0 then quarantineEnd a1 else a1
  else
    a

/-- Incubation block of `human.step` (source lines 166–174): accumulate
infection risk while unquarantined (raising `DO_INFECT` on crossing 1),
decrement `icounter`, and resolve `incubend` when it reaches 0.  Returns
(agent, retval contribution, draw cursor). -/
def stepIncub (p : Params) (a : Human) (r : Draws) (n : ℕ) : Human × ℕ × ℕ :=
  if a.st = Status.incub then
    let t1 :=
      if a.safequarantinectr < 1 then
        let aR := { a with riskcounter := a.riskcounter + p.Pi }
        if aR.riskcounter > 1 then
          ({ aR with riskcounter := aR.riskcounter - 1 }, DO_INFECT)
        else
          (aR, 0)
      else
        (a, (0 : ℕ))
    let a2 := { t1.1 with icounter := t1.1.icounter - 1 }
    if a2.icounter = 0 then
      let t2 := incubend p a2 r n
      (t2.1, t1.2 + t2.2.1, t2.2.2)
    else
      (a2, t1.2, n)
  else
    (a, 0, n)

/-- Illness block of `human.step` (source lines 175–184): decrement
`icounter` and `defer_alarm`; `defer_alarm` hitting exactly 0 OVERWRITES
`retval` with `DO_ALARM` (an assignment in the source, not `+=`);
`icounter` hitting 0 resolves the terminal transition. -/
def stepIll (a : Human) (retval : ℕ) : Human × ℕ :=
  if a.st = Status.illquarant then
    let a1 := { a with icounter := a.icounter - 1,
                       defer_alarm := a.defer_alarm - 1 }
    let rv := if a1.defer_alarm = 0 then DO_ALARM else retval
    let a2 :=
      if a1.icounter = 0 then
        { a1 with st := if a1.willdie then Status.dead else Status.recovered }
      else
        a1
    (a2, rv)
  else
    (a, retval)

/-- `human.step` (source lines 158–185): quarantine block, then incubation
block, then illness block, in source order, on the successively updated
agent.  Returns (agent, retval, draw cursor). -/
def step (p : Params) (a : Human) (r : Draws) (n : ℕ) : Human × ℕ × ℕ :=
  let a0 := stepQuarantine a
  let t1 := stepIncub p a0 r n
  let t2 := stepIll t1.1 t1.2.1
  (t2.1, t2.2, t1.2.2)

/-- The `humanParams` defaults together with the module constants of the
source (`R0 = 3`, `Ti = 7`, `Tr = 21`, `Td = 15`, `Tq = Ti + 3`,
`Pd = 0.2`, `Pi = R0/Ti`, `meeting = 30`,
`swabAvailabilityProbability = 1` overridden to `0.75` in main,
`EFFICIENCY_REDUCTION = 0.1`, `DEFER_SWAB_DAYS = 2`). -/
def hp0 : Params :=
  { Ti := 7, Tr := 21, Td := 15, Tq := 10, Pd := 1/5, Pi := 3/7,
    meeting := 30, amtHasApp := 7/10, swabAvailabilityProbability := 3/4,
    efficiency_reduction := 1/10, defer_swab_days := 2 }

/-- `math.floor(random.random() * POP)`: the sampled index. -/
def ratIdx (q : ℚ) (ps : ℕ) : ℕ :=
  (q * (ps : ℚ)).floor.toNat

/-- Accumulator threaded through one simulated day (engine state plus the
day's counters; `infectAttempts`, `contacts` and `steps` are ghost event
counters recording, respectively, each `infect` call made by the
infection-sampling loop, each `addMet` contact recording, and each
`step` call). -/
structure DayAcc where
  popl : List Human
  n : ℕ
  ninfec : ℕ
  ndead : ℕ
  nrecovered : ℕ
  nhealthy : ℕ
  infectAttempts : ℕ
  contacts : ℕ
  steps : ℕ
deriving Repr

/-- One day's record of the aggregate counters and ghost event counters. -/
structure DayRec where
  ninfec : ℕ
  ndead : ℕ
  nrecovered : ℕ
  nhealthy : ℕ
  infectAttempts : ℕ
  contacts : ℕ
  steps : ℕ
deriving DecidableEq, Repr

/-- Default day record (used as `getD` fallback). -/
def dayRec0 : DayRec := ⟨0, 0, 0, 0, 0, 0, 0⟩

/-- Infection-target rejection sampling (source lines 216–221):
`while not OK and deadlockctr < int(POP) and not skipContagi`, each
iteration drawing a uniform index and calling `infect` on it.  `fuel`
plays the role of `int(POP) - deadlockctr`.  The third component counts
the `infect` calls performed. -/
def infectLoop (p : Params) (ps : ℕ) (r : Draws) (skip : Bool) :
    ℕ → List Human → ℕ → List Human × ℕ × ℕ
  | 0, popl, n => (popl, n, 0)
  | fuel + 1, popl, n =>
    if skip then
      (popl, n, 0)
    else
      let g := ratIdx (r n) ps
      let t := infect p (popl.getD g human0)
      let popl1 := popl.set g t.1
      if t.2 ≠ 0 then
        (popl1, n + 1, 1)
      else
        let res := infectLoop p ps r skip fuel popl1 (n + 1)
        (res.1, res.2.1, res.2.2 + 1)

/-- Contact rejection sampling (source lines 222–230):
`while tomeet > 0 and deadlockctr < 0.5*int(POP) and not skipContagi`,
each iteration drawing a uniform index and, when the target `isMeetable`,
appending its id to agent `i`'s `meetingList` (`addMet`).  The initial
fuel is `⌈ps/2⌉`, the number of iterations `deadlockctr < 0.5*ps` allows.
The third component counts the `addMet` calls performed. -/
def contactLoop (p : Params) (ps : ℕ) (r : Draws) (skip : Bool) (i : ℕ) :
    ℕ → ℕ → List Human → ℕ → List Human × ℕ × ℕ
  | 0, _, popl, n => (popl, n, 0)
  | fuel + 1, tomeet, popl, n =>
    if tomeet = 0 ∨ skip then
      (popl, n, 0)
    else
      let g := ratIdx (r n) ps
      if isMeetable (popl.getD g human0) then
        let me := popl.getD i human0
        let me1 := { me with meetingList :=
          me.meetingList ++ [(popl.getD g human0).id] }
        let res := contactLoop p ps r skip i fuel (tomeet - 1)
          (popl.set i me1) (n + 1)
        (res.1, res.2.1, res.2.2 + 1)
      else
        contactLoop p ps r skip i fuel tomeet popl (n + 1)

/-- Alarm broadcast (source lines 231–233): `appAlarm` on every agent id
in the stepped agent's `meetingList`, in list order. -/
def alarmLoop (p : Params) (r : Draws) :
    List ℕ → List Human → ℕ → List Human × ℕ
  | [], popl, n => (popl, n)
  | j :: rest, popl, n =>
    let t := appAlarm p (popl.getD j human0) r n
    alarmLoop p r rest (popl.set j t.1) t.2

/-- The body of the inner loop of `experiment.run` (source lines 213–238)
for one agent index `i`: step the agent, resolve a raised `DO_INFECT` by
rejection sampling, sample contacts if the agent is (post-step) incubating,
broadcast a raised `DO_ALARM` to its recorded contacts, then add the
agent's classification to the day's counters. -/
def processAgent (p : Params) (ps : ℕ) (r : Draws) (skip : Bool) (i : ℕ)
    (acc : DayAcc) : DayAcc :=
  let s := step p (acc.popl.getD i human0) r acc.n
  let popl1 := acc.popl.set i s.1
  let inf :=
    if s.2.1 &&& DO_INFECT ≠ 0 then infectLoop p ps r skip ps popl1 s.2.2
    else (popl1, s.2.2, 0)
  let con :=
    if (inf.1.getD i human0).st = Status.incub then
      contactLoop p ps r skip i ((ps + 1) / 2) p.meeting inf.1 inf.2.1
    else (inf.1, inf.2.1, 0)
  let al :=
    if s.2.1 &&& DO_ALARM ≠ 0 then
      alarmLoop p r (con.1.getD i human0).meetingList con.1 con.2.1
    else (con.1, con.2.1)
  let af := al.1.getD i human0
  { popl := al.1, n := al.2,
    ninfec := acc.ninfec + isInfected af,
    ndead := acc.ndead + isDead af,
    nrecovered := acc.nrecovered + isRecovered af,
    nhealthy := acc.nhealthy + isHealthy af,
    infectAttempts := acc.infectAttempts + inf.2.2,
    contacts := acc.contacts + con.2.2,
    steps := acc.steps + 1 }

/-- Fold of `processAgent` over the day's agent indices. -/
def processAgents (p : Params) (ps : ℕ) (r : Draws) (skip : Bool) :
    List ℕ → DayAcc → DayAcc
  | [], acc => acc
  | i :: rest, acc =>
    processAgents p ps r skip rest (processAgent p ps r skip i acc)

/-- The day loop of `experiment.run` (source lines 212–244): process every
agent index in order with fresh day counters, record the day, and set
`skipContagi` for the rest of the run once
`nhealthy[day] < 0.3 * POP`.  Returns the day records in order. -/
def runDays (p : Params) (ps : ℕ) (r : Draws) :
    ℕ → List Human → ℕ → Bool → List DayRec
  | 0, _, _, _ => []
  | fuel + 1, popl, n, skip =>
    let acc := processAgents p ps r skip (List.range ps)
      ⟨popl, n, 0, 0, 0, 0, 0, 0, 0⟩
    let skip2 := if (acc.nhealthy : ℚ) < 3 / 10 * (ps : ℚ) then true else skip
    ⟨acc.ninfec, acc.ndead, acc.nrecovered, acc.nhealthy,
      acc.infectAttempts, acc.contacts, acc.steps⟩ ::
      runDays p ps r fuel acc.popl acc.n skip2

/-- Population construction (`experiment.__init__`, source lines 195–196):
`count` agents with consecutive ids from `i`, each consuming one draw for
its `hasApp` Bernoulli. -/
def mkPop (p : Params) (r : Draws) : ℕ → ℕ → ℕ → List Human × ℕ
  | 0, _, n => ([], n)
  | count + 1, i, n =>
    let a := { human0 with id := i, hasApp := decide (r n < p.amtHasApp) }
    let rest := mkPop p r count (i + 1) (n + 1)
    (a :: rest.1, rest.2)

/-- Seed infection (`experiment.__init__`, source lines 200–201):
`infect` the first `day0` agents in index order. -/
def seedInfect (p : Params) (day0 : ℕ) (popl : List Human) : List Human :=
  (List.range day0).foldl
    (fun pl i => pl.set i (infect p (pl.getD i human0)).1) popl

/-- Construct the experiment and run it (source lines 192–245):
population of size `ps`, `day0` seed-infected, `days` simulated days. -/
def runExperiment (p : Params) (ps days day0 : ℕ) (r : Draws) : List DayRec :=
  let m := mkPop p r ps 0 0
  runDays p ps r days (seedInfect p day0 m.1) m.2 false

/-- The run's output contract (source line 245): the daily
(infected, dead, recovered) sequences. -/
def dailyOutputs (p : Params) (ps days day0 : ℕ) (r : Draws) :
    List (ℕ × ℕ × ℕ) :=
  (runExperiment p ps days day0 r).map fun rec0 =>
    (rec0.ninfec, rec0.ndead, rec0.nrecovered)

/-- Which raise-sites of `human.step` fire on a given call (derived from
the same branch conditions the source tests; `willdieSamples` counts the
`random.random()` draws `incubend` makes for `willdie`). -/
structure StepEvents where
  infectRaised : Bool
  alarmImmediate : Bool
  alarmLate : Bool
  willdieSamples : ℕ
deriving DecidableEq, Repr

/-- The events of one `step` call: `infectRaised` is the risk-accumulator
crossing at source line 169–171, `alarmImmediate` the `return DO_ALARM` of
`incubend` (line 101), `alarmLate` the `retval = DO_ALARM` assignment
(line 179), and `willdieSamples` the number of `willdie` Bernoulli draws
(line 89, exactly one per `incubend` call). -/
def stepEvents (p : Params) (a : Human) (r : Draws) (n : ℕ) : StepEvents :=
  let a0 := stepQuarantine a
  let incubendRan := a0.st = Status.incub ∧ a0.icounter = 1
  let t1 := stepIncub p a0 r n
  { infectRaised := decide (a0.st = Status.incub ∧ a0.safequarantinectr < 1 ∧
      a0.riskcounter + p.Pi > 1),
    alarmImmediate := decide (incubendRan ∧ a0.hasApp = true ∧
      r (n + 1) < p.swabAvailabilityProbability ∧ p.defer_swab_days = 0),
    alarmLate := decide (t1.1.st = Status.illquarant ∧ t1.1.defer_alarm = 1),
    willdieSamples := if incubendRan then 1 else 0 }

/-- Iterate `step` `k` times, threading the draw cursor. -/
def iterStep (p : Params) (r : Draws) : ℕ → Human → ℕ → Human × ℕ
  | 0, a, n => (a, n)
  | k + 1, a, n =>
    let s := step p a r n
    iterStep p r k s.1 s.2.2

/-- The retval of the step performed after `k` preceding steps
(so `retAtStep 0` is the first step's return value). -/
def retAtStep (p : Params) (r : Draws) (a : Human) (n : ℕ) (k : ℕ) : ℕ :=
  (step p (iterStep p r k a n).1 r (iterStep p r k a n).2).2.1

/-- The agent-level operations the engine invokes on an agent: its own
daily `step`, an `infect` from the sampling loop, an `appAlarm` from a
contact's alarm broadcast. -/
inductive AgentOp where
  | opStep
  | opInfect
  | opAlarm
deriving DecidableEq, Repr

/-- Run a sequence of engine-invoked operations on one agent, threading
the draw cursor. -/
def runOps (p : Params) (r : Draws) : List AgentOp → Human → ℕ → Human × ℕ
  | [], a, n => (a, n)
  | AgentOp.opStep :: rest, a, n =>
    let s := step p a r n
    runOps p r rest s.1 s.2.2
  | AgentOp.opInfect :: rest, a, n =>
    runOps p r rest (infect p a).1 n
  | AgentOp.opAlarm :: rest, a, n =>
    let s := appAlarm p a r n
    runOps p r rest s.1 s.2

/-! ## Helper values and concrete fixtures used by the claims -/

/-- The risk-accumulator value after the incubation block of `step`. -/
def riskAfter (p : Params) (a : Human) : ℚ :=
  if a.safequarantinectr < 1 then
    if a.riskcounter + p.Pi > 1 then a.riskcounter + p.Pi - 1
    else a.riskcounter + p.Pi
  else a.riskcounter

/-- The `DO_INFECT` contribution of the incubation block of `step`. -/
def riskRv (p : Params) (a : Human) : ℕ :=
  if a.safequarantinectr < 1 ∧ a.riskcounter + p.Pi > 1 then DO_INFECT
  else 0

/-- The C3 counterexample agent: incubating, one incubation day left, risk
accumulator about to cross 1, a leftover `defer_alarm = 1` from an earlier
illness interrupted by quarantine end, app user. -/
def aC3 : Human :=
  { st := Status.incub, icounter := 1, riskcounter := 1, willdie := false,
    safequarantinectr := 0, hasApp := true, meetingList := [], id := 0,
    defer_alarm := 1 }

/-- The C7 counterexample agent: a fresh app user. -/
def aC7 : Human := { human0 with hasApp := true }

/-- The C7 counterexample draw stream: the first `willdie` draw (cursor 1)
is below `Pd = 1/5`; every other draw is 1/2. -/
def rC7 : Draws := fun k => if k = 1 then 1/10 else 1/2

/-- The C7 counterexample operation trace, first act: alarm (arming a
10-day quarantine), infection, ten steps (incubation ends at step 7 with
the first `willdie` sample; quarantine end forces the agent back to
Healthy at step 10 while still ill). -/
def opsC7a : List AgentOp :=
  AgentOp.opAlarm :: AgentOp.opInfect :: List.replicate 10 AgentOp.opStep

/-- The C7 counterexample trace, both acts: after the forced return to
Healthy the agent is infected again and steps through a second full
incubation, whose end re-samples `willdie`. -/
def opsC7b : List AgentOp :=
  opsC7a ++ (AgentOp.opInfect :: List.replicate 7 AgentOp.opStep)

/-- Concrete C10 witness agent: unquarantined incubating app user with one
incubation day left. -/
def aC10 : Human :=
  { st := Status.incub, icounter := 1, riskcounter := 0, willdie := false,
    safequarantinectr := 0, hasApp := true, meetingList := [], id := 0,
    defer_alarm := 0 }

/-! ## Claim C2 -/

unseal Rat.add Rat.sub Rat.mul Rat.inv Rat.ofScientific in
/-- C2 counterexample: `infect` on a Healthy agent whose `riskcounter` is
1/2 (a state reachable in a run: an incubating agent accumulates
`riskcounter`, quarantine end resets it to Healthy with `riskcounter`
intact) leaves `riskcounter` at 1/2: contrary to the claim, `infect` does
NOT reset the risk accumulator to 0. -/
theorem C2_counterexample :
    (infect hp0 { human0 with riskcounter := 1/2 }).1.st = Status.incub ∧
    (infect hp0 { human0 with riskcounter := 1/2 }).1.riskcounter ≠ 0 := by
  decide

/-- C2 amended: `infect` on a Healthy agent transitions it to Incubating
and sets `icounter = Ti`, returning 1, but leaves every other field —
in particular `riskcounter` — unchanged (no reset to 0). -/
theorem C2_infect_healthy (p : Params) (a : Human)
    (h : a.st = Status.healthy) :
    infect p a = ({ a with st := Status.incub, icounter := p.Ti }, 1) := by
  simp [infect, h]

/-- Witness for `C2_infect_healthy` at a concrete Healthy agent. -/
theorem C2_infect_healthy_witness :
    infect hp0 { human0 with riskcounter := 1/2 } =
      ({ human0 with st := Status.incub, icounter := 7, riskcounter := 1/2 },
        1) := by
  have h := C2_infect_healthy hp0 { human0 with riskcounter := 1/2 }
    (by decide)
  simpa [hp0] using h

/-! ## Claim C6 -/

/-- C6: `infect` on a non-Healthy agent returns 0 and leaves the agent's
entire state unchanged; it returns 1 exactly from the Healthy status. -/
theorem C6_infect_nonhealthy_noop (p : Params) (a : Human) :
    (a.st ≠ Status.healthy → infect p a = (a, 0)) ∧
    ((infect p a).2 = 1 ↔ a.st = Status.healthy) := by
  constructor
  · intro h
    simp [infect, h]
  · by_cases h : a.st = Status.healthy <;> simp [infect, h]

/-- Witness for `C6_infect_nonhealthy_noop`: an incubating agent is left
untouched and the call reports failure. -/
theorem C6_infect_nonhealthy_noop_witness :
    infect hp0 { human0 with st := Status.incub, icounter := 3 } =
      ({ human0 with st := Status.incub, icounter := 3 }, 0) :=
  (C6_infect_nonhealthy_noop hp0
    { human0 with st := Status.incub, icounter := 3 }).1 (by decide)

/-! ## Claim C4 -/

/-- C4: in `step`, when `safequarantinectr` is decremented from 1 to 0 the
status is unconditionally forced to Healthy, whatever status the agent
held while quarantined, and the counter ends at 0. -/
theorem C4_quarantine_end_heals (p : Params) (a : Human) (r : Draws)
    (n : ℕ) (h : a.safequarantinectr = 1) :
    (step p a r n).1.st = Status.healthy ∧
    (step p a r n).1.safequarantinectr = 0 := by
  simp [step, stepQuarantine, quarantineEnd, h, stepIncub, stepIll]

/-- Witness for `C4_quarantine_end_heals`: a Dead agent whose quarantine
counter expires this step ends the step Healthy. -/
theorem C4_quarantine_end_heals_witness :
    (step hp0 { human0 with st := Status.dead, safequarantinectr := 1 }
      (fun _ => 1/2) 0).1.st = Status.healthy :=
  (C4_quarantine_end_heals hp0
    { human0 with st := Status.dead, safequarantinectr := 1 }
    (fun _ => 1/2) 0 (by decide)).1

/-! ## Claim C1 -/

set_option maxRecDepth 4000 in
unseal Rat.add Rat.sub Rat.mul Rat.inv Rat.ofScientific in
/-- C1 counterexample: Dead is NOT absorbing.  A Dead agent with the app
that receives a contact-tracing alarm (`appAlarm` arms
`safequarantinectr = Tq`; the source never checks the status there) is
forced back to Healthy ten steps later by the quarantine-end rule, so a
subsequent operation does change the status of a Dead agent. -/
theorem C1_counterexample :
    (runOps hp0 (fun _ => 1/2)
      (AgentOp.opAlarm :: List.replicate 10 AgentOp.opStep)
      { human0 with st := Status.dead, hasApp := true } 0).1.st =
      Status.healthy := by
  decide

/-- C1 amended: Recovered and Dead are absorbing for `infect` and
`appAlarm` unconditionally, and for `step` exactly as long as the
quarantine counter does not expire this step: a step in which
`safequarantinectr` drops from 1 to 0 resets the status to Healthy. -/
theorem C1_terminal_absorbing (p : Params) (a : Human) (r : Draws) (n : ℕ)
    (h : a.st = Status.recovered ∨ a.st = Status.dead) :
    (infect p a).1.st = a.st ∧
    (appAlarm p a r n).1.st = a.st ∧
    (step p a r n).1.st =
      (if a.safequarantinectr = 1 then Status.healthy else a.st) := by
  have hns : a.st ≠ Status.healthy := by
    rcases h with h | h <;> simp [h]
  refine ⟨?_, ?_, ?_⟩
  · simp [infect, hns]
  · unfold appAlarm
    split
    · split <;> rfl
    · rfl
  · by_cases hq : a.safequarantinectr = 1
    · simp [step, stepQuarantine, quarantineEnd, hq, stepIncub, stepIll]
    · have hni : a.st ≠ Status.incub := by
        rcases h with h | h <;> simp [h]
      have hnl : a.st ≠ Status.illquarant := by
        rcases h with h | h <;> simp [h]
      unfold step stepQuarantine
      split
      · rename_i hgt
        have : ¬ a.safequarantinectr - 1 = 0 := by omega
        simp [this, stepIncub, stepIll, hni, hnl, hq]
      · simp [stepIncub, stepIll, hni, hnl, hq]

/-- Witness for `C1_terminal_absorbing` at a Recovered agent with no
active quarantine: nothing changes its status this step. -/
theorem C1_terminal_absorbing_witness :
    (step hp0 { human0 with st := Status.recovered } (fun _ => 1/2) 0).1.st
      = Status.recovered := by
  have h := (C1_terminal_absorbing hp0 { human0 with st := Status.recovered }
    (fun _ => 1/2) 0 (Or.inl rfl)).2.2
  simpa using h

/-! ## Characterization lemmas for the blocks of `step` -/

theorem stepQuarantine_eq (a : Human) :
    stepQuarantine a =
      { a with
        st := if a.safequarantinectr = 1 then Status.healthy else a.st,
        safequarantinectr :=
          if 0 < a.safequarantinectr then a.safequarantinectr - 1
          else a.safequarantinectr } := by
  cases a
  unfold stepQuarantine quarantineEnd
  dsimp only
  split_ifs <;> simp_all <;> omega

theorem stepIncub_not_incub (p : Params) (a : Human) (r : Draws) (n : ℕ)
    (h : a.st ≠ Status.incub) : stepIncub p a r n = (a, 0, n) := by
  unfold stepIncub
  rw [if_neg h]


theorem stepIncub_no_trans (p : Params) (a : Human) (r : Draws) (n : ℕ)
    (hst : a.st = Status.incub) (hic : a.icounter ≠ 1) :
    stepIncub p a r n =
      ({ a with riskcounter := riskAfter p a, icounter := a.icounter - 1 },
        riskRv p a, n) := by
  obtain ⟨st, ic, risk, wd, ctr, app, ml, idv, da⟩ := a
  subst hst
  have hic2 : ¬ (ic - 1 = 0) := by
    simp only at hic
    omega
  simp only [stepIncub, riskAfter, riskRv]
  by_cases hq : ctr < (1 : ℤ)
  · by_cases hr : risk + p.Pi > 1
    · simp [hq, hr, hic2]
    · simp [hq, hr, hic2]
  · simp [hq, hic2]

theorem stepIncub_trans (p : Params) (a : Human) (r : Draws) (n : ℕ)
    (hst : a.st = Status.incub) (hic : a.icounter = 1) :
    stepIncub p a r n =
      ((incubend p { a with riskcounter := riskAfter p a, icounter := 0 }
          r n).1,
        riskRv p a +
          (incubend p { a with riskcounter := riskAfter p a, icounter := 0 }
            r n).2.1,
        (incubend p { a with riskcounter := riskAfter p a, icounter := 0 }
          r n).2.2) := by
  obtain ⟨st, ic, risk, wd, ctr, app, ml, idv, da⟩ := a
  subst hst
  simp only at hic
  subst hic
  simp only [stepIncub, riskAfter, riskRv]
  by_cases hq : ctr < (1 : ℤ)
  · by_cases hr : risk + p.Pi > 1
    · simp [hq, hr]
    · simp [hq, hr]
  · simp [hq]

theorem incubend_eq (p : Params) (a : Human) (r : Draws) (n : ℕ) :
    incubend p a r n =
      ({ a with
          willdie := decide (r n < p.Pd),
          icounter := if r n < p.Pd then p.Td else p.Tr,
          st := Status.illquarant,
          defer_alarm :=
            if a.hasApp = true ∧ r (n + 1) < p.swabAvailabilityProbability ∧
                p.defer_swab_days ≠ 0 then
              p.defer_swab_days
            else a.defer_alarm },
        (if a.hasApp = true ∧ r (n + 1) < p.swabAvailabilityProbability ∧
            p.defer_swab_days = 0 then DO_ALARM else 0),
        if a.hasApp = true then n + 2 else n + 1) := by
  obtain ⟨st, ic, risk, wd, ctr, app, ml, idv, da⟩ := a
  unfold incubend
  split_ifs <;> simp_all

theorem stepIll_not_ill (a : Human) (v : ℕ)
    (h : a.st ≠ Status.illquarant) : stepIll a v = (a, v) := by
  unfold stepIll
  rw [if_neg h]

theorem stepIll_ill (a : Human) (v : ℕ) (h : a.st = Status.illquarant) :
    stepIll a v =
      ({ a with
          icounter := a.icounter - 1,
          defer_alarm := a.defer_alarm - 1,
          st :=
            if a.icounter = 1 then
              if a.willdie = true then Status.dead else Status.recovered
            else Status.illquarant },
        if a.defer_alarm = 1 then DO_ALARM else v) := by
  obtain ⟨st, ic, risk, wd, ctr, app, ml, idv, da⟩ := a
  subst h
  unfold stepIll
  split_ifs <;> simp_all <;> omega

theorem stepQuarantine_id (a : Human) (h : ¬ 0 < a.safequarantinectr) :
    stepQuarantine a = a := by
  unfold stepQuarantine
  rw [if_neg h]

/-- A full `step` on an unquarantined ill agent: both counters decrement,
the deferred alarm fires exactly when `defer_alarm` was 1, the terminal
transition happens exactly when `icounter` was 1, and no draw is
consumed. -/
theorem step_ill_closed (p : Params) (a : Human) (r : Draws) (n : ℕ)
    (hst : a.st = Status.illquarant) (hq : a.safequarantinectr = 0) :
    step p a r n =
      ({ a with
          icounter := a.icounter - 1,
          defer_alarm := a.defer_alarm - 1,
          st :=
            if a.icounter = 1 then
              if a.willdie = true then Status.dead else Status.recovered
            else Status.illquarant },
        (if a.defer_alarm = 1 then DO_ALARM else 0), n) := by
  have h0 : stepQuarantine a = a := stepQuarantine_id a (by omega)
  simp only [step, h0]
  rw [stepIncub_not_incub p a r n (by simp [hst])]
  simp only
  rw [stepIll_ill a 0 hst]

theorem iterStep_zero (p : Params) (r : Draws) (a : Human) (n : ℕ) :
    iterStep p r 0 a n = (a, n) := rfl

theorem iterStep_succ (p : Params) (r : Draws) (k : ℕ) (a : Human)
    (n : ℕ) :
    iterStep p r (k + 1) a n =
      iterStep p r k (step p a r n).1 (step p a r n).2.2 := rfl

/-- Iterating `step` on an unquarantined ill agent, staying strictly
inside the illness window: status stays `illquarant`, both counters drop
by the number of steps, `willdie` is untouched, and no draw is
consumed. -/
theorem iter_ill (p : Params) (r : Draws) :
    ∀ (j : ℕ) (a : Human) (n : ℕ),
      a.st = Status.illquarant → a.safequarantinectr = 0 →
      (j : ℤ) < a.icounter →
      (iterStep p r j a n).1.st = Status.illquarant ∧
      (iterStep p r j a n).1.icounter = a.icounter - j ∧
      (iterStep p r j a n).1.defer_alarm = a.defer_alarm - j ∧
      (iterStep p r j a n).1.willdie = a.willdie ∧
      (iterStep p r j a n).1.safequarantinectr = 0 ∧
      (iterStep p r j a n).2 = n := by
  intro j
  induction j with
  | zero =>
    intro a n hst hq _
    simp [iterStep_zero, hst, hq]
  | succ j ih =>
    intro a n hst hq hlt
    have hic1 : a.icounter ≠ 1 := by
      push_cast at hlt
      omega
    rw [iterStep_succ, step_ill_closed p a r n hst hq]
    have hnext :=
      ih { a with
            icounter := a.icounter - 1,
            defer_alarm := a.defer_alarm - 1,
            st :=
              if a.icounter = 1 then
                if a.willdie = true then Status.dead else Status.recovered
              else Status.illquarant }
        n (by simp [hic1]) (by simp [hq]) (by push_cast at hlt ⊢; omega)
    simp only at hnext
    obtain ⟨e1, e2, e3, e4, e5, e6⟩ := hnext
    refine ⟨e1, ?_, ?_, by simpa [hic1] using e4, e5, e6⟩
    · rw [e2]
      push_cast
      ring
    · rw [e3]
      push_cast
      ring

/-- Iterating `step` on an unquarantined ill agent through the end of the
illness window: after `icounter` many steps the agent is Dead or
Recovered according to `willdie`. -/
theorem iter_ill_end (p : Params) (r : Draws) :
    ∀ (j : ℕ) (a : Human) (n : ℕ),
      a.st = Status.illquarant → a.safequarantinectr = 0 →
      a.icounter = (j : ℤ) + 1 →
      (iterStep p r (j + 1) a n).1.st =
        (if a.willdie = true then Status.dead else Status.recovered) := by
  intro j
  induction j with
  | zero =>
    intro a n hst hq hic
    rw [iterStep_succ, step_ill_closed p a r n hst hq]
    simp [iterStep_zero, hic]
  | succ j ih =>
    intro a n hst hq hic
    have hic1 : a.icounter ≠ 1 := by
      push_cast at hic
      omega
    rw [iterStep_succ, step_ill_closed p a r n hst hq]
    have hnext :=
      ih { a with
            icounter := a.icounter - 1,
            defer_alarm := a.defer_alarm - 1,
            st :=
              if a.icounter = 1 then
                if a.willdie = true then Status.dead else Status.recovered
              else Status.illquarant }
        n (by simp [hic1]) (by simp [hq]) (by push_cast at hic ⊢; omega)
    simpa [hic1] using hnext

/-! ## Claim C3 -/


unseal Rat.add Rat.sub Rat.mul Rat.inv Rat.ofScientific in
/-- C3 counterexample: the raised flags are NOT always all present in the
return value.  In a step where the risk accumulator crosses 1 (raising
`DO_INFECT`) and, in the same call, the incubation ends with a failed swab
draw (4/5 ≥ 3/4) while the leftover `defer_alarm = 1` reaches 0, the
source's `retval = DO_ALARM` assignment (line 179) overwrites the
already-raised `DO_INFECT`: the call returns `DO_ALARM` alone and the
INFECT flag is lost. -/
theorem C3_counterexample :
    (stepEvents hp0 aC3 (fun _ => 4/5) 0).infectRaised = true ∧
    (step hp0 aC3 (fun _ => 4/5) 0).2.1 &&& DO_INFECT = 0 := by
  decide

/-- C3 amended: the value returned by `step` is the OR of the flags raised
during the call, EXCEPT when the deferred-alarm countdown fires in the
illness block: in that case the return value is overwritten to exactly
`DO_ALARM`, dropping any `DO_INFECT` raised earlier in the same call. -/
theorem C3_retval_formula (p : Params) (a : Human) (r : Draws) (n : ℕ) :
    (step p a r n).2.1 =
      if (stepEvents p a r n).alarmLate = true then DO_ALARM
      else
        (if (stepEvents p a r n).infectRaised = true then DO_INFECT else 0) +
        (if (stepEvents p a r n).alarmImmediate = true then DO_ALARM
          else 0) := by
  simp only [step, stepEvents, decide_eq_true_eq]
  by_cases h1 : (stepQuarantine a).st = Status.incub
  · by_cases h2 : (stepQuarantine a).icounter = 1
    · rw [stepIncub_trans p _ r n h1 h2, incubend_eq]
      by_cases h5 : (stepQuarantine a).hasApp = true
      · by_cases h6 : r (n + 1) < p.swabAvailabilityProbability
        · by_cases h7 : p.defer_swab_days = 0
          · rw [stepIll_ill _ _ (by simp)]
            simp only [h1, h2, h5, h6, h7, riskRv, DO_INFECT, DO_ALARM]
            split_ifs <;> simp_all
          · rw [stepIll_ill _ _ (by simp)]
            simp only [h1, h2, h5, h6, h7, riskRv, DO_INFECT, DO_ALARM]
            split_ifs <;> simp_all
        · rw [stepIll_ill _ _ (by simp)]
          simp only [h1, h2, h5, h6, riskRv, DO_INFECT, DO_ALARM]
          split_ifs <;> simp_all
      · rw [stepIll_ill _ _ (by simp)]
        simp only [h1, h2, h5, riskRv, DO_INFECT, DO_ALARM]
        split_ifs <;> simp_all
    · rw [stepIncub_no_trans p _ r n h1 h2]
      rw [stepIll_not_ill _ _ (by simp [h1])]
      simp only [h1, h2, riskRv, DO_INFECT, DO_ALARM]
      split_ifs <;> simp_all
  · rw [stepIncub_not_incub p _ r n h1]
    by_cases h3 : (stepQuarantine a).st = Status.illquarant
    · rw [stepIll_ill _ _ h3]
      simp [h1, h3, DO_ALARM]
    · rw [stepIll_not_ill _ _ h3]
      simp [h1, h3]

/-! ## Claim C7 -/


set_option maxRecDepth 8000 in
unseal Rat.add Rat.sub Rat.mul Rat.inv Rat.ofScientific in
/-- C7 counterexample: `willDie` is NOT sampled only once per agent per
run.  The same agent passes the incubation→illness transition twice
(quarantine end forces it back to Healthy in between, and it is then
re-infected); the first transition samples `willdie = true` (draw 1/10 <
Pd), the second re-samples it to `false` (draw 1/2 ≥ Pd) — observable as
the agent's `willdie` flipping between the two prefixes of the trace. -/
theorem C7_counterexample :
    (runOps hp0 rC7 opsC7a aC7 0).1.willdie = true ∧
    (runOps hp0 rC7 opsC7b aC7 0).1.willdie = false := by
  decide

/-- C7 amended: `willdie` is (re)sampled exactly at incubation→illness
transitions.  A `step` that does not execute the transition (agent not
incubating after the quarantine block, or `icounter ≠ 1`) leaves `willdie`
unchanged and consumes no draws; a `step` that does execute it sets
`willdie` from the Bernoulli(Pd) draw at the current cursor; `infect` and
`appAlarm` never touch `willdie`.  Hence `willdie` is re-sampled only when
the agent re-enters incubation after quarantine end returned it to
Healthy. -/
theorem C7_willdie_sampling (p : Params) (a : Human) (r : Draws) (n : ℕ) :
    (¬ ((stepQuarantine a).st = Status.incub ∧ a.icounter = 1) →
      (step p a r n).1.willdie = a.willdie ∧ (step p a r n).2.2 = n) ∧
    ((stepQuarantine a).st = Status.incub ∧ a.icounter = 1 →
      (step p a r n).1.willdie = decide (r n < p.Pd)) ∧
    (infect p a).1.willdie = a.willdie ∧
    (appAlarm p a r n).1.willdie = a.willdie := by
  have hwd : (stepQuarantine a).willdie = a.willdie := by
    rw [stepQuarantine_eq]
  have hic : (stepQuarantine a).icounter = a.icounter := by
    rw [stepQuarantine_eq]
  refine ⟨?_, ?_, ?_, ?_⟩
  · intro h
    simp only [step]
    by_cases h1 : (stepQuarantine a).st = Status.incub
    · have h2 : (stepQuarantine a).icounter ≠ 1 := by
        rw [hic]; intro hx; exact h ⟨h1, hx⟩
      rw [stepIncub_no_trans p _ r n h1 h2]
      rw [stepIll_not_ill _ _ (by simp [h1])]
      simp [hwd]
    · rw [stepIncub_not_incub p _ r n h1]
      by_cases h3 : (stepQuarantine a).st = Status.illquarant
      · rw [stepIll_ill _ _ h3]
        simp [hwd]
      · rw [stepIll_not_ill _ _ h3]
        simp [hwd]
  · rintro ⟨h1, h2⟩
    simp only [step]
    rw [stepIncub_trans p _ r n h1 (by rw [hic]; exact h2), incubend_eq]
    rw [stepIll_ill _ _ (by simp)]
  · unfold infect
    split_ifs <;> rfl
  · unfold appAlarm
    split_ifs <;> rfl

/-- Witness for `C7_willdie_sampling` at a concrete transition step: the
incubating agent's `willdie` is set from the Bernoulli draw at the current
cursor. -/
theorem C7_willdie_sampling_witness :
    (step hp0 aC10 (fun _ => 1/2) 0).1.willdie =
      decide ((1 : ℚ)/2 < hp0.Pd) :=
  (C7_willdie_sampling hp0 aC10 (fun _ => 1/2) 0).2.1 ⟨rfl, rfl⟩

/-! ## Claim C10 -/

/-- The transition step of an unquarantined incubating app user whose
incubation ends this step with a successful swab draw and a nonzero alarm
deferral: illness length and deferral are armed and immediately
decremented within the same call. -/
theorem step_transition (p : Params) (a : Human) (r : Draws) (n : ℕ)
    (hst : a.st = Status.incub) (hic : a.icounter = 1)
    (hq : a.safequarantinectr = 0) (happ : a.hasApp = true)
    (hswab : r (n + 1) < p.swabAvailabilityProbability)
    (hD0 : p.defer_swab_days ≠ 0) :
    (step p a r n).1.st =
      (if (if r n < p.Pd then p.Td else p.Tr) = 1 then
        (if r n < p.Pd then Status.dead else Status.recovered)
       else Status.illquarant) ∧
    (step p a r n).1.icounter = (if r n < p.Pd then p.Td else p.Tr) - 1 ∧
    (step p a r n).1.defer_alarm = p.defer_swab_days - 1 ∧
    (step p a r n).1.willdie = decide (r n < p.Pd) ∧
    (step p a r n).1.safequarantinectr = 0 ∧
    (step p a r n).2.1 =
      (if p.defer_swab_days = 1 then DO_ALARM else riskRv p a) ∧
    (step p a r n).2.2 = n + 2 := by
  have h0 : stepQuarantine a = a := stepQuarantine_id a (by omega)
  simp only [step, h0]
  rw [stepIncub_trans p a r n hst hic, incubend_eq]
  simp only [happ, hswab, hD0]
  rw [stepIll_ill _ _ (by simp)]
  simp [hq, hswab, hD0]

set_option maxHeartbeats 800000 in
/-- C10: on the step in which incubation ends (for an unquarantined app
user with a successful swab draw and `DEFER_SWAB_DAYS ≥ 1`), the
`IllQuarantined` branch of the same call also runs: the just-armed
`icounter = L` (L = Td or Tr by the `willdie` draw) and
`defer_alarm = DEFER_SWAB_DAYS` are both already decremented within that
call; the ALARM flag is raised exactly `DEFER_SWAB_DAYS - 1` steps after
the transition step (and at no other step of the illness); the agent stays
`IllQuarantined` strictly inside the illness window and leaves it on the
L-th step counting the transition step itself, to Dead or Recovered by the
sampled `willdie`. -/
theorem C10_transition_timing (p : Params) (a : Human) (r : Draws) (n : ℕ)
    (L : ℤ)
    (hst : a.st = Status.incub) (hic : a.icounter = 1)
    (hq : a.safequarantinectr = 0) (happ : a.hasApp = true)
    (hswab : r (n + 1) < p.swabAvailabilityProbability)
    (hD1 : 1 ≤ p.defer_swab_days)
    (hL : L = if r n < p.Pd then p.Td else p.Tr)
    (hDL : p.defer_swab_days ≤ L) :
    ((iterStep p r 1 a n).1.icounter = L - 1 ∧
      (iterStep p r 1 a n).1.defer_alarm = p.defer_swab_days - 1) ∧
    (∀ k : ℕ, (k : ℤ) < L →
      (retAtStep p r a n k &&& DO_ALARM ≠ 0 ↔
        (k : ℤ) = p.defer_swab_days - 1)) ∧
    (∀ k : ℕ, 1 ≤ k → (k : ℤ) < L →
      (iterStep p r k a n).1.st = Status.illquarant) ∧
    (iterStep p r L.toNat a n).1.st =
      (if r n < p.Pd then Status.dead else Status.recovered) := by
  have hD0 : p.defer_swab_days ≠ 0 := by omega
  obtain ⟨e1, e2, e3, e4, e5, e6, e7⟩ :=
    step_transition p a r n hst hic hq happ hswab hD0
  rw [← hL] at e1 e2
  have hL1 : 1 ≤ L := le_trans hD1 hDL
  have hfirst : iterStep p r 1 a n = ((step p a r n).1, n + 2) := by
    rw [iterStep_succ, iterStep_zero, e7]
  refine ⟨?_, ?_, ?_, ?_⟩
  · rw [hfirst]
    exact ⟨e2, e3⟩
  · intro k hk
    match k with
    | 0 =>
      have hval : retAtStep p r a n 0 = (step p a r n).2.1 := by
        unfold retAtStep
        rw [iterStep_zero]
      rw [hval, e6]
      by_cases hD : p.defer_swab_days = 1
      · rw [if_pos hD]
        refine ⟨fun _ => by omega, fun _ => by decide⟩
      · rw [if_neg hD]
        have hz : riskRv p a &&& DO_ALARM = 0 := by
          unfold riskRv DO_INFECT DO_ALARM
          split_ifs <;> decide
        refine ⟨fun hc => (hc hz).elim, fun heq => ?_⟩
        push_cast at heq
        omega
    | j + 1 =>
      have hL2 : ¬ L = 1 := by
        push_cast at hk
        omega
      have hill : (step p a r n).1.st = Status.illquarant := by
        rw [e1, if_neg hL2]
      have hmid := iter_ill p r j (step p a r n).1 (n + 2) hill e5
        (by rw [e2]; push_cast at hk ⊢; omega)
      have hrest : iterStep p r (j + 1) a n =
          iterStep p r j (step p a r n).1 (n + 2) := by
        rw [iterStep_succ, e7]
      have hval : retAtStep p r a n (j + 1) =
          (step p (iterStep p r j (step p a r n).1 (n + 2)).1 r
            (iterStep p r j (step p a r n).1 (n + 2)).2).2.1 := by
        unfold retAtStep
        rw [hrest]
      have hstep2 := step_ill_closed p
        (iterStep p r j (step p a r n).1 (n + 2)).1 r
        (iterStep p r j (step p a r n).1 (n + 2)).2
        hmid.1 hmid.2.2.2.2.1
      rw [hval, hstep2]
      dsimp only
      rw [hmid.2.2.1, e3]
      by_cases hc : p.defer_swab_days - 1 - (j : ℤ) = 1
      · rw [if_pos hc]
        refine ⟨fun _ => by push_cast; omega, fun _ => by decide⟩
      · rw [if_neg hc]
        refine ⟨fun hx => (hx (by decide)).elim, fun heq => ?_⟩
        push_cast at heq
        omega
  · intro k hk1 hk
    match k with
    | j + 1 =>
      have hL2 : ¬ L = 1 := by
        push_cast at hk
        omega
      have hill : (step p a r n).1.st = Status.illquarant := by
        rw [e1, if_neg hL2]
      have hmid := iter_ill p r j (step p a r n).1 (n + 2) hill e5
        (by rw [e2]; push_cast at hk ⊢; omega)
      have hrest : iterStep p r (j + 1) a n =
          iterStep p r j (step p a r n).1 (n + 2) := by
        rw [iterStep_succ, e7]
      rw [hrest]
      exact hmid.1
  · by_cases hL2 : L = 1
    · have : L.toNat = 1 := by omega
      rw [this, hfirst]
      rw [e1, if_pos hL2]
    · have hill : (step p a r n).1.st = Status.illquarant := by
        rw [e1, if_neg hL2]
      have hsplit : L.toNat = (L.toNat - 2) + 1 + 1 := by omega
      rw [hsplit, iterStep_succ, e7]
      have hend := iter_ill_end p r (L.toNat - 2) (step p a r n).1 (n + 2)
        hill e5 (by rw [e2]; omega)
      rw [hend, e4]
      by_cases hwd : r n < p.Pd <;> simp [hwd]


unseal Rat.add Rat.sub Rat.mul Rat.inv Rat.ofScientific in
/-- Witness for `C10_transition_timing` at the source constants
(`Tr = 21`, `DEFER_SWAB_DAYS = 2`, draws all 1/2, so `willdie = false` and
`L = 21`): the ALARM bit is raised one step after the transition step, and
after 21 steps (transition step included) the agent is Recovered. -/
theorem C10_transition_timing_witness :
    (retAtStep hp0 (fun _ => 1/2) aC10 0 1 &&& DO_ALARM ≠ 0) ∧
    (iterStep hp0 (fun _ => 1/2) 21 aC10 0).1.st = Status.recovered := by
  have h := C10_transition_timing hp0 aC10 (fun _ => 1/2) 0 21 rfl rfl rfl
    rfl (by decide) (by decide) (by decide) (by decide)
  refine ⟨(h.2.1 1 (by decide)).mpr (by decide), ?_⟩
  have h4 := h.2.2.2
  rw [if_neg (by decide : ¬ ((1:ℚ)/2 < hp0.Pd))] at h4
  exact h4

/-! ## Claim C5 -/

/-- Every agent is counted in exactly one of the four aggregate
categories (the five statuses partition; `isInfected` covers both
`incub` and `illquarant`). -/
theorem classSum (a : Human) :
    isInfected a + isDead a + isRecovered a + isHealthy a = 1 := by
  cases h : a.st <;>
    simp [isInfected, isDead, isRecovered, isHealthy, h]

theorem add_class (n1 n2 n3 n4 : ℕ) (af : Human) :
    n1 + isInfected af + (n2 + isDead af) + (n3 + isRecovered af) +
      (n4 + isHealthy af) = n1 + n2 + n3 + n4 + 1 := by
  have h := classSum af
  omega

theorem processAgent_sum (p : Params) (ps : ℕ) (r : Draws) (skip : Bool)
    (i : ℕ) (acc : DayAcc) :
    (processAgent p ps r skip i acc).ninfec +
      (processAgent p ps r skip i acc).ndead +
      (processAgent p ps r skip i acc).nrecovered +
      (processAgent p ps r skip i acc).nhealthy =
    acc.ninfec + acc.ndead + acc.nrecovered + acc.nhealthy + 1 := by
  unfold processAgent
  exact add_class _ _ _ _ _

theorem processAgents_sum (p : Params) (ps : ℕ) (r : Draws) (skip : Bool) :
    ∀ (l : List ℕ) (acc : DayAcc),
      (processAgents p ps r skip l acc).ninfec +
        (processAgents p ps r skip l acc).ndead +
        (processAgents p ps r skip l acc).nrecovered +
        (processAgents p ps r skip l acc).nhealthy =
      acc.ninfec + acc.ndead + acc.nrecovered + acc.nhealthy + l.length
  | [], acc => by simp [processAgents]
  | i :: rest, acc => by
    have ih := processAgents_sum p ps r skip rest
      (processAgent p ps r skip i acc)
    simp only [processAgents, ih, processAgent_sum, List.length_cons]
    omega

theorem runDays_length (p : Params) (ps : ℕ) (r : Draws) :
    ∀ (fuel : ℕ) (popl : List Human) (n : ℕ) (skip : Bool),
      (runDays p ps r fuel popl n skip).length = fuel
  | 0, _, _, _ => rfl
  | fuel + 1, popl, n, skip => by
    simp only [runDays, List.length_cons]
    rw [runDays_length p ps r fuel]

theorem runDays_sum (p : Params) (ps : ℕ) (r : Draws) :
    ∀ (fuel : ℕ) (popl : List Human) (n : ℕ) (skip : Bool)
      (rec0 : DayRec),
      rec0 ∈ runDays p ps r fuel popl n skip →
      rec0.ninfec + rec0.ndead + rec0.nrecovered + rec0.nhealthy = ps
  | 0, _, _, _, _, h => by simp [runDays] at h
  | fuel + 1, popl, n, skip, rec0, h => by
    simp only [runDays, List.mem_cons] at h
    rcases h with h | h
    · subst h
      have hs := processAgents_sum p ps r skip (List.range ps)
        ⟨popl, n, 0, 0, 0, 0, 0, 0, 0⟩
      simpa [List.length_range] using hs
    · exact runDays_sum p ps r fuel _ _ _ rec0 h

/-- C5: on every simulated day of a run, the four aggregated counters sum
to the population size: each agent contributes exactly 1 to exactly one of
infected/dead/recovered/healthy when it is counted after its step. -/
theorem C5_conservation (p : Params) (ps days day0 : ℕ) (r : Draws)
    (d : ℕ) (hd : d < days) :
    ((runExperiment p ps days day0 r).getD d dayRec0).ninfec +
      ((runExperiment p ps days day0 r).getD d dayRec0).ndead +
      ((runExperiment p ps days day0 r).getD d dayRec0).nrecovered +
      ((runExperiment p ps days day0 r).getD d dayRec0).nhealthy = ps := by
  have hlen : (runExperiment p ps days day0 r).length = days := by
    unfold runExperiment
    exact runDays_length p ps r days _ _ _
  have hd2 : d < (runExperiment p ps days day0 r).length := by
    rw [hlen]; exact hd
  have hmem : (runExperiment p ps days day0 r).getD d dayRec0 ∈
      runExperiment p ps days day0 r := by
    rw [List.getD_eq_getElem _ _ hd2]
    exact List.getElem_mem hd2
  exact runDays_sum p ps r days _ _ _ _
    (by simpa [runExperiment] using hmem)

/-! ## Claim C8 -/

theorem infectLoop_skip (p : Params) (ps : ℕ) (r : Draws) :
    ∀ (fuel : ℕ) (popl : List Human) (n : ℕ),
      infectLoop p ps r true fuel popl n = (popl, n, 0)
  | 0, _, _ => rfl
  | fuel + 1, popl, n => by simp [infectLoop]

theorem contactLoop_skip (p : Params) (ps : ℕ) (r : Draws) (i : ℕ) :
    ∀ (fuel tomeet : ℕ) (popl : List Human) (n : ℕ),
      contactLoop p ps r true i fuel tomeet popl n = (popl, n, 0)
  | 0, _, _, _ => rfl
  | fuel + 1, tomeet, popl, n => by simp [contactLoop]

/-- With `skipContagi` set, processing an agent performs no sampled
`infect` call and records no contact, while its `step` still runs. -/
theorem processAgent_skip (p : Params) (ps : ℕ) (r : Draws) (i : ℕ)
    (acc : DayAcc) :
    (processAgent p ps r true i acc).infectAttempts = acc.infectAttempts ∧
    (processAgent p ps r true i acc).contacts = acc.contacts ∧
    (processAgent p ps r true i acc).steps = acc.steps + 1 := by
  unfold processAgent
  simp only [infectLoop_skip, contactLoop_skip, ite_self]
  refine ⟨?_, ?_, ?_⟩ <;> simp

theorem processAgents_skip (p : Params) (ps : ℕ) (r : Draws) :
    ∀ (l : List ℕ) (acc : DayAcc),
      (processAgents p ps r true l acc).infectAttempts =
        acc.infectAttempts ∧
      (processAgents p ps r true l acc).contacts = acc.contacts ∧
      (processAgents p ps r true l acc).steps = acc.steps + l.length
  | [], acc => by simp [processAgents]
  | i :: rest, acc => by
    have ih := processAgents_skip p ps r rest (processAgent p ps r true i acc)
    have hi := processAgent_skip p ps r i acc
    simp only [processAgents, List.length_cons]
    refine ⟨?_, ?_, ?_⟩
    · rw [ih.1, hi.1]
    · rw [ih.2.1, hi.2.1]
    · rw [ih.2.2, hi.2.2]
      omega

/-- Once `skipContagi` is set it is never reset, and every subsequent
day's record shows zero sampled infections, zero recorded contacts, and
one `step` per agent. -/
theorem runDays_skip (p : Params) (ps : ℕ) (r : Draws) :
    ∀ (fuel : ℕ) (popl : List Human) (n : ℕ) (rec0 : DayRec),
      rec0 ∈ runDays p ps r fuel popl n true →
      rec0.infectAttempts = 0 ∧ rec0.contacts = 0 ∧ rec0.steps = ps
  | 0, _, _, _, h => by simp [runDays] at h
  | fuel + 1, popl, n, rec0, h => by
    simp only [runDays, List.mem_cons, ite_self] at h
    rcases h with h | h
    · subst h
      have hs := processAgents_skip p ps r (List.range ps)
        ⟨popl, n, 0, 0, 0, 0, 0, 0, 0⟩
      refine ⟨hs.1, hs.2.1, ?_⟩
      have := hs.2.2
      simpa [List.length_range] using this
    · exact runDays_skip p ps r fuel _ _ rec0 h

theorem runDays_guard (p : Params) (ps : ℕ) (r : Draws) :
    ∀ (fuel : ℕ) (popl : List Human) (n : ℕ) (skip : Bool) (d : ℕ),
      d < fuel →
      (((runDays p ps r fuel popl n skip).getD d dayRec0).nhealthy : ℚ) <
        3 / 10 * (ps : ℚ) →
      ∀ d2, d < d2 → d2 < fuel →
        ((runDays p ps r fuel popl n skip).getD d2 dayRec0).infectAttempts
            = 0 ∧
        ((runDays p ps r fuel popl n skip).getD d2 dayRec0).contacts = 0 ∧
        ((runDays p ps r fuel popl n skip).getD d2 dayRec0).steps = ps := by
  intro fuel
  induction fuel with
  | zero =>
    intro popl n skip d hd
    exact absurd hd (Nat.not_lt_zero d)
  | succ f ih =>
    intro popl n skip d hd hcond d2 hdd2 hd2
    have hcons : runDays p ps r (f + 1) popl n skip =
        (let acc := processAgents p ps r skip (List.range ps)
          ⟨popl, n, 0, 0, 0, 0, 0, 0, 0⟩
        (⟨acc.ninfec, acc.ndead, acc.nrecovered, acc.nhealthy,
          acc.infectAttempts, acc.contacts, acc.steps⟩ : DayRec) ::
          runDays p ps r f acc.popl acc.n
            (if (acc.nhealthy : ℚ) < 3 / 10 * (ps : ℚ) then true
              else skip)) := rfl
    rw [hcons] at hcond ⊢
    obtain ⟨j, rfl⟩ : ∃ j, d2 = j + 1 := ⟨d2 - 1, by omega⟩
    rw [List.getD_cons_succ]
    have hjf : j < f := by omega
    match d, hdd2 with
    | 0, _ =>
      rw [List.getD_cons_zero] at hcond
      rw [if_pos hcond]
      have hlen : j <
          (runDays p ps r f
            (processAgents p ps r skip (List.range ps)
              ⟨popl, n, 0, 0, 0, 0, 0, 0, 0⟩).popl
            (processAgents p ps r skip (List.range ps)
              ⟨popl, n, 0, 0, 0, 0, 0, 0, 0⟩).n true).length := by
        rw [runDays_length]
        exact hjf
      apply runDays_skip p ps r f _ _ _
      rw [List.getD_eq_getElem _ _ hlen]
      exact List.getElem_mem hlen
    | e + 1, _ =>
      rw [List.getD_cons_succ] at hcond
      exact ih _ _ _ e (by omega) hcond j (by omega) hjf

/-- C8: once the end-of-day healthy count falls below 30% of the
population on day `d`, every strictly later day of the run performs no
sampled `infect` call and records no contact (`addMet`), while `step` is
still called for every one of the `ps` agents. -/
theorem C8_degenerate_guard (p : Params) (ps days day0 : ℕ) (r : Draws)
    (d d2 : ℕ) (hd : d < days) (hdd2 : d < d2) (hd2 : d2 < days)
    (hcond :
      (((runExperiment p ps days day0 r).getD d dayRec0).nhealthy : ℚ) <
        3 / 10 * (ps : ℚ)) :
    ((runExperiment p ps days day0 r).getD d2 dayRec0).infectAttempts
        = 0 ∧
    ((runExperiment p ps days day0 r).getD d2 dayRec0).contacts = 0 ∧
    ((runExperiment p ps days day0 r).getD d2 dayRec0).steps = ps := by
  have h := runDays_guard p ps r days
    (seedInfect p day0 (mkPop p r ps 0 0).1) (mkPop p r ps 0 0).2 false d hd
    (by simpa [runExperiment] using hcond) d2 hdd2 hd2
  simpa [runExperiment] using h

unseal Rat.add Rat.sub Rat.mul Rat.inv Rat.ofScientific in
/-- Witness for `C8_degenerate_guard`: population 1, one seed infection,
three days.  On day 0 the single agent is incubating, so the healthy
count 0 is below 30% of the population; day 1 then shows zero sampled
infections and contacts while the lone agent is still stepped. -/
theorem C8_degenerate_guard_witness :
    ((runExperiment hp0 1 3 1 (fun _ => 1/2)).getD 1 dayRec0).infectAttempts
        = 0 ∧
    ((runExperiment hp0 1 3 1 (fun _ => 1/2)).getD 1 dayRec0).contacts
        = 0 ∧
    ((runExperiment hp0 1 3 1 (fun _ => 1/2)).getD 1 dayRec0).steps = 1 :=
  C8_degenerate_guard hp0 1 3 1 (fun _ => 1/2) 0 1 (by omega) (by omega)
    (by omega) (by decide)

/-! ## Claim C9 -/

/-- C9: the run is deterministic.  The engine's outputs (the daily
infected, dead, recovered sequences) are a pure function of the parameters
and the random-number stream: two executions with the same seedable
random state and the same parameters produce identical sequences. -/
theorem C9_determinism (p1 p2 : Params) (ps1 ps2 days1 days2 day01 day02 : ℕ)
    (r1 r2 : Draws) (hp : p1 = p2) (hps : ps1 = ps2)
    (hdays : days1 = days2) (hday0 : day01 = day02)
    (hr : ∀ k, r1 k = r2 k) :
    dailyOutputs p1 ps1 days1 day01 r1 =
      dailyOutputs p2 ps2 days2 day02 r2 := by
  subst hp hps hdays hday0
  rw [funext hr]

/-- Witness for `C9_determinism` at a concrete configuration. -/
theorem C9_determinism_witness :
    dailyOutputs hp0 2 2 1 (fun _ => 1/2) =
      dailyOutputs hp0 2 2 1 (fun _ => 1/2) :=
  C9_determinism hp0 hp0 2 2 2 2 1 1 (fun _ => 1/2) (fun _ => 1/2)
    rfl rfl rfl rfl (fun _ => rfl)

/-- Witness for `C5_conservation` on a concrete run: population 2, two
days, one seed infection. -/
theorem C5_conservation_witness :
    ((runExperiment hp0 2 2 1 (fun _ => 1/2)).getD 0 dayRec0).ninfec +
      ((runExperiment hp0 2 2 1 (fun _ => 1/2)).getD 0 dayRec0).ndead +
      ((runExperiment hp0 2 2 1 (fun _ => 1/2)).getD 0 dayRec0).nrecovered +
      ((runExperiment hp0 2 2 1 (fun _ => 1/2)).getD 0 dayRec0).nhealthy
      = 2 :=
  C5_conservation hp0 2 2 1 (fun _ => 1/2) 0 (by omega)

end PyCT
